import Mathlib

/-!
Verification of the stock_screener ingest-to-snapshot engine against its
natural-language specification.  The Python sources under
`src/stock_screener/` are shallowly embedded below: SQLite tables become
lists of rows, the `db_session` context manager becomes an explicit
commit-or-rollback wrapper, pandas frames become lists of optional
rationals, and the scraper's parsing pipeline becomes a character-level
scanner.  Machine floats are modelled as exact rationals `ℚ`.
-/

namespace StockScreener

/-! ## Storage layer (storage/db.py, storage/repository.py)

A `snapshot_metrics` row is keyed by `(asof_date, ticker)`; the remaining
33 non-key columns of the INSERT in `Repository.replace_snapshot`
(repository.py lines 112-117: name, market, close, mcap, ..., calc_version)
are carried opaquely as `payload`, since no claim inspects them. -/

structure SnapRow where
  asof_date : String
  ticker : String
  payload : List (Option ℚ)
deriving DecidableEq, Repr

abbrev SnapStore := List SnapRow

/-- Embedding of `db_session` (db.py lines 133-140): the body runs against
the connection state; `conn.commit()` runs only when the body finishes
without an exception, and `conn.close()` on the exception path discards the
uncommitted transaction.  Returns the committed store and the body outcome. -/
def db_session {σ α : Type} (st : σ) (body : σ → Except Unit (σ × α)) :
    σ × Except Unit α :=
  match body st with
  | Except.ok (st2, a) => (st2, Except.ok a)
  | Except.error e => (st, Except.error e)

/-- The `DELETE FROM snapshot_metrics WHERE asof_date = ?` statement
(repository.py line 109). -/
def deleteAsof (st : SnapStore) (a : String) : SnapStore :=
  st.filter (fun r => r.asof_date != a)

/-- One row of the `executemany INSERT` (repository.py lines 120-130):
SQLite raises `IntegrityError` when the `(asof_date, ticker)` primary key
(db.py line 90) already holds a row. -/
def insertRow (conn : SnapStore) (r : SnapRow) : Except Unit SnapStore :=
  if conn.any (fun x => x.asof_date == r.asof_date && x.ticker == r.ticker) then
    Except.error ()
  else
    Except.ok (conn ++ [r])

/-- Sequential inserts of `executemany`.  `fail i` injects an environment
fault (e.g. an I/O error reported by SQLite) at the i-th insert, on top of
the deterministic primary-key conflicts; the happy path is `fun _ => false`. -/
def insertRows (fail : Nat → Bool) : Nat → SnapStore → List SnapRow → Except Unit SnapStore
  | _, conn, [] => Except.ok conn
  | i, conn, r :: rest =>
    if fail i then Except.error ()
    else
      match insertRow conn r with
      | Except.error e => Except.error e
      | Except.ok conn2 => insertRows fail (i + 1) conn2 rest

/-- Body of `Repository.replace_snapshot` (repository.py lines 107-131):
delete all rows at `asof_date`, return 0 on an empty frame (still inside
the session, so the delete is committed), otherwise insert every frame row
and return the frame length. -/
def replace_snapshot_body (fail : Nat → Bool) (asof_date : String)
    (rows : List SnapRow) (conn : SnapStore) : Except Unit (SnapStore × Nat) :=
  let conn1 := deleteAsof conn asof_date
  if rows.isEmpty then Except.ok (conn1, 0)
  else
    match insertRows fail 0 conn1 rows with
    | Except.error e => Except.error e
    | Except.ok conn2 => Except.ok (conn2, rows.length)

/-- `Repository.replace_snapshot` run under `db_session`: returns the
committed store and either the reported row count or the propagated error. -/
def replace_snapshot (fail : Nat → Bool) (st : SnapStore) (asof_date : String)
    (rows : List SnapRow) : SnapStore × Except Unit Nat :=
  db_session st (replace_snapshot_body fail asof_date rows)

/-- Rows of the store at a given as-of date, in stored order. -/
def rowsAt (st : SnapStore) (a : String) : SnapStore :=
  st.filter (fun r => r.asof_date == a)

/-- Row count at a given as-of date. -/
def countAt (st : SnapStore) (a : String) : Nat :=
  (rowsAt st a).length

/-- Rows of the store at every other as-of date, in stored order. -/
def rowsNotAt (st : SnapStore) (a : String) : SnapStore :=
  st.filter (fun r => r.asof_date != a)

/-- A daily price row (prices_daily, db.py lines 16-27). -/
structure PriceRow where
  date : String
  ticker : String
  open_px : Option ℚ
  high : Option ℚ
  low : Option ℚ
  close : Option ℚ
  volume : Option ℚ
  value : Option ℚ
deriving DecidableEq, Repr

abbrev PriceStore := List PriceRow

/-- One `INSERT ... ON CONFLICT(date, ticker) DO UPDATE` row
(repository.py lines 48-62): full replacement of the non-key columns. -/
def upsertPriceRow (st : PriceStore) (r : PriceRow) : PriceStore :=
  if st.any (fun x => x.date == r.date && x.ticker == r.ticker) then
    st.map (fun x => if x.date == r.date && x.ticker == r.ticker then r else x)
  else
    st ++ [r]

/-- `Repository.upsert_prices` (repository.py lines 40-63): an empty frame
returns 0 before any session is opened; otherwise every row is upserted in
one transaction and the row count is returned. -/
def upsert_prices (st : PriceStore) (frame : List PriceRow) : PriceStore × Nat :=
  if frame.isEmpty then (st, 0)
  else (frame.foldl upsertPriceRow st, frame.length)

/-! ## Schema initialization (storage/db.py) -/

/-- The `snapshot_metrics` column list of the CREATE TABLE statement
(db.py lines 53-91). -/
def snapshot_metrics_schema_columns : List String :=
  ["asof_date", "ticker", "name", "market", "close", "mcap", "avg_value_20d",
   "turnover_20d", "per", "pbr", "div", "dps", "eps", "bps", "roe_proxy",
   "eps_positive", "sma20", "sma50", "sma200", "dist_sma20", "dist_sma50",
   "dist_sma200", "high_52w", "low_52w", "pos_52w", "near_52w_high_ratio",
   "vol_20d", "ret_1w", "ret_1m", "ret_3m", "ret_6m", "ret_1y",
   "eps_cagr_5y", "eps_yoy_q", "calc_version", "created_at"]

/-- A SQLite table surface: its column names and its rows (one cell list per
row, in column order). -/
structure SqlTable where
  columns : List String
  rows : List (List (Option ℚ))
deriving DecidableEq, Repr

/-- `_ensure_column` (db.py lines 117-120): `ALTER TABLE ... ADD COLUMN`
only when the column is absent; an added column is NULL-filled and existing
rows are preserved. -/
def ensure_column (t : SqlTable) (column : String) : SqlTable :=
  if t.columns.contains column then t
  else { columns := t.columns ++ [column], rows := t.rows.map (fun r => r ++ [none]) }

/-- `CREATE TABLE IF NOT EXISTS snapshot_metrics` from `executescript SCHEMA`
(db.py line 125): a missing table is created fresh with the schema columns;
an existing table is untouched. -/
def create_snapshot_table (db : Option SqlTable) : SqlTable :=
  match db with
  | some t => t
  | none => { columns := snapshot_metrics_schema_columns, rows := [] }

/-- `init_db` (db.py lines 123-130) restricted to the `snapshot_metrics`
table: run the schema script, then ensure exactly the four columns the
source lists (lines 126-129). -/
def init_db_snapshot (db : Option SqlTable) : SqlTable :=
  let t0 := create_snapshot_table db
  let t1 := ensure_column t0 "dps"
  let t2 := ensure_column t1 "near_52w_high_ratio"
  let t3 := ensure_column t2 "eps_cagr_5y"
  ensure_column t3 "eps_yoy_q"

/-! ## Repository surface vs the reserve-only pipeline (pipelines/daily_batch.py)

`Repository` (repository.py lines 10-204) defines exactly the attributes
below; `DailyBatchPipeline.update_reserve_ratio_only` (daily_batch.py lines
38-59) accesses repository attributes in the order given by
`update_reserve_call_order`.  In Python, accessing an attribute missing
from the class raises `AttributeError` at the first such access. -/

def repository_methods : List String :=
  ["_to_sql_records", "upsert_tickers", "upsert_prices", "upsert_cap",
   "upsert_fundamental", "replace_snapshot", "get_price_window",
   "get_daily_join", "get_fundamental_window", "get_latest_price_date",
   "count_active_tickers", "get_latest_snapshot_date", "load_snapshot"]

/-- Repository attributes accessed by `update_reserve_ratio_only`, in
program order: the two latest-date reads happen only when no `asof_date`
argument is given (daily_batch.py lines 42-47), `get_active_tickers` is
unconditional (line 49), `upsert_tickers` only when the ticker list came
back empty (line 52), and `upsert_reserve_ratio` is unconditional (line 57). -/
def update_reserve_call_order (asofGiven : Bool) (tickersEmpty : Bool) : List String :=
  (if asofGiven then [] else ["get_latest_price_date", "get_latest_snapshot_date"]) ++
    ["get_active_tickers"] ++
    (if tickersEmpty then ["upsert_tickers"] else []) ++
    ["upsert_reserve_ratio"]

/-- The first repository attribute access of the reserve-only pipeline that
raises `AttributeError`, i.e. the first accessed name not defined on
`Repository`. -/
def first_missing_repo_call (asofGiven : Bool) (tickersEmpty : Bool) : Option String :=
  (update_reserve_call_order asofGiven tickersEmpty).find?
    (fun m => !(repository_methods.contains m))

/-! ## Reserve-ratio scraper, concurrency skeleton
(collectors/naver_ratio_client.py, `latest_reserve_ratio`, lines 154-240)

Each submitted task returns its ticker together with the extraction result
(`some ratio` on success, `none` otherwise).  `as_completed` delivers these
results in an arbitrary completion order, modelled as any permutation of the
per-ticker results; successful results land in the dict `rows` keyed by
ticker (line 209), and the output is rebuilt from the input ticker order
(line 239). -/

/-- Python dict assignment `rows[ticker] = ratio` on an association list. -/
def insertDict (d : List (String × ℚ)) (t : String) (v : ℚ) : List (String × ℚ) :=
  if d.any (fun p => p.fst == t) then
    d.map (fun p => if p.fst == t then (t, v) else p)
  else d ++ [(t, v)]

/-- The `as_completed` loop: fold the completed results into the `rows`
dict, keeping only successful extractions. -/
def collectRows (completed : List (String × Option ℚ)) : List (String × ℚ) :=
  completed.foldl
    (fun d p =>
      match p.snd with
      | some v => insertDict d p.fst v
      | none => d)
    []

/-- Python `ticker in rows` / `rows[ticker]` lookup. -/
def lookupDict (d : List (String × ℚ)) (t : String) : Option ℚ :=
  (d.find? (fun p => p.fst == t)).map (fun p => p.snd)

/-- `worker_count = max(1, min(self.max_workers, total))` (line 185). -/
def worker_count (max_workers total : Nat) : Nat := max 1 (min max_workers total)

/-- The result frame of `latest_reserve_ratio` (lines 237-240): empty when
no extraction succeeded, otherwise the `(ticker, reserve_ratio)` rows
listed in input-ticker order restricted to tickers present in `rows`. -/
def reserve_rows (tickers : List String) (completed : List (String × Option ℚ)) :
    List (String × ℚ) :=
  let rows := collectRows completed
  if rows.isEmpty then []
  else tickers.filterMap (fun t => (lookupDict rows t).map (fun v => (t, v)))

/-! ## Reserve-ratio numeric parsing
(collectors/naver_ratio_client.py, lines 34-88)

The scanner below implements `re.findall` of the pattern
`-?\d+(?:,\d{3})*(?:\.\d+)?`: scan left to right, at each position try a
greedy match, emit it and resume after it, else advance one character. -/

/-- Greedy `(?:,\d{3})*`: consume groups of a comma followed by exactly
three digits; return the consumed characters and the remainder. -/
def commaGroups : List Char → List Char × List Char
  | ',' :: a :: b :: c :: rest =>
    if a.isDigit && b.isDigit && c.isDigit then
      match commaGroups rest with
      | (g, r) => (',' :: a :: b :: c :: g, r)
    else ([], ',' :: a :: b :: c :: rest)
  | cs => ([], cs)

/-- Greedy `(?:\.\d+)?`: a dot followed by at least one digit, else nothing. -/
def fracPart : List Char → List Char × List Char
  | '.' :: c :: rest =>
    if c.isDigit then
      ('.' :: (c :: rest).takeWhile Char.isDigit, (c :: rest).dropWhile Char.isDigit)
    else ([], '.' :: c :: rest)
  | cs => ([], cs)

/-- Match `-?\d+(?:,\d{3})*(?:\.\d+)?` at the head of the input; return the
matched token and the remainder, or `none` when the position does not start
a number. -/
def matchNumber (cs : List Char) : Option (List Char × List Char) :=
  match cs with
  | '-' :: c :: rest =>
    if c.isDigit then
      let intPart := (c :: rest).takeWhile Char.isDigit
      let rest1 := (c :: rest).dropWhile Char.isDigit
      let (grp, rest2) := commaGroups rest1
      let (frac, rest3) := fracPart rest2
      some ('-' :: (intPart ++ grp ++ frac), rest3)
    else none
  | c :: rest =>
    if c.isDigit then
      let intPart := (c :: rest).takeWhile Char.isDigit
      let rest1 := (c :: rest).dropWhile Char.isDigit
      let (grp, rest2) := commaGroups rest1
      let (frac, rest3) := fracPart rest2
      some (intPart ++ grp ++ frac, rest3)
    else none
  | [] => none

/-- `re.findall` scan; the fuel argument (initialized to the input length)
only bounds the recursion, every match consumes at least one character. -/
def findNumbersAux : Nat → List Char → List (List Char)
  | 0, _ => []
  | _ + 1, [] => []
  | fuel + 1, c :: rest =>
    match matchNumber (c :: rest) with
    | some (tok, r) => tok :: findNumbersAux fuel r
    | none => findNumbersAux fuel rest

/-- All number literals of a cell, left to right. -/
def findNumbers (cs : List Char) : List (List Char) :=
  findNumbersAux cs.length cs

/-- Decimal digits to a natural number. -/
def digitsToNat (ds : List Char) : Nat :=
  ds.foldl (fun acc c => 10 * acc + (c.toNat - 48)) 0

/-- Python `float(raw)` on a matched token whose commas were already
removed: exact decimal value as a rational; `none` models `ValueError`
(unreachable for tokens produced by `findNumbers`). -/
def pyFloat (cs : List Char) : Option ℚ :=
  let (neg, body) :=
    match cs with
    | '-' :: rest => (true, rest)
    | _ => (false, cs)
  let intPart := body.takeWhile Char.isDigit
  let rest := body.dropWhile Char.isDigit
  let fracDigits :=
    match rest with
    | '.' :: ds => ds
    | _ => []
  if intPart.isEmpty then none
  else
    let v : ℚ :=
      mkRat (digitsToNat intPart * 10 ^ fracDigits.length + digitsToNat fracDigits : Nat)
        (10 ^ fracDigits.length)
    some (if neg then -v else v)

/-- `_parse_valid_numbers` (lines 78-88): parse each raw literal after
removing commas, skip unparsable ones, keep only values in
`[-1000, 100000]`. -/
def parse_valid_numbers (raw_values : List (List Char)) : List ℚ :=
  raw_values.filterMap (fun raw =>
    match pyFloat (raw.filter (fun c => c != ',')) with
    | none => none
    | some v => if -1000 ≤ v ∧ v ≤ 100000 then some v else none)

/-- Per-ticker parse outcomes (lines 46-76). -/
inductive ParseStatus where
  | success
  | no_data
  | parse_error
  | marker_missing
deriving DecidableEq, Repr

/-- The row-based branch of `_extract_latest_reserve_ratio_with_status`
(lines 44-56), starting from the tag-stripped cell strings `normalized`:
all-blank/dash cells mean `no_data`; otherwise gather the number literals
of every cell in order, filter through `_parse_valid_numbers`, and return
the first positive kept value, else the first kept value, else
`parse_error`. -/
def extract_from_row_cells (normalized : List String) : Option ℚ × ParseStatus :=
  if !normalized.isEmpty && normalized.all (fun v => v == "" || v == "-") then
    (none, ParseStatus.no_data)
  else
    let row_numbers := normalized.foldl (fun acc v => acc ++ findNumbers v.data) []
    let values := parse_valid_numbers row_numbers
    match values with
    | [] => (none, ParseStatus.parse_error)
    | v :: _ =>
      match values.filter (fun x => decide (0 < x)) with
      | p :: _ => (some p, ParseStatus.success)
      | [] => (some v, ParseStatus.success)

/-! ## Response decoding (collectors/naver_ratio_client.py, lines 100-113)

Bytes are naturals below 256 and decoded text is a list of Unicode
codepoints.  UTF-8 is implemented from the encoding's definition
(continuation ranges, overlong and surrogate rejection).  EUC-KR and CP949
are external codecs whose mapping tables are not part of this repository;
they are modelled structurally: single bytes below 0x80 decode to
themselves, a valid lead/trail pair decodes to the injective placeholder
codepoint `0x10000 + lead * 256 + trail`, and anything else fails.  No
claim depends on the concrete characters a Korean pair decodes to, only on
success or failure. -/

def isCont (b : Nat) : Bool := 0x80 ≤ b && b ≤ 0xBF

/-- Valid first continuation ranges of a three-byte UTF-8 sequence
(excluding overlong encodings and surrogates, as Python does). -/
def utf8Lead3Ok (b c1 : Nat) : Bool :=
  if b == 0xE0 then 0xA0 ≤ c1 && c1 ≤ 0xBF
  else if b == 0xED then 0x80 ≤ c1 && c1 ≤ 0x9F
  else isCont c1

/-- Valid first continuation ranges of a four-byte UTF-8 sequence. -/
def utf8Lead4Ok (b c1 : Nat) : Bool :=
  if b == 0xF0 then 0x90 ≤ c1 && c1 ≤ 0xBF
  else if b == 0xF4 then 0x80 ≤ c1 && c1 ≤ 0x8F
  else isCont c1

/-- Decode one UTF-8 scalar at the head; return the codepoint and the rest. -/
def utf8One (b : Nat) (rest : List Nat) : Option (Nat × List Nat) :=
  if b ≤ 0x7F then some (b, rest)
  else if 0xC2 ≤ b && b ≤ 0xDF then
    match rest with
    | c1 :: r2 =>
      if isCont c1 then some ((b - 0xC0) * 64 + (c1 - 0x80), r2) else none
    | [] => none
  else if 0xE0 ≤ b && b ≤ 0xEF then
    match rest with
    | c1 :: c2 :: r2 =>
      if utf8Lead3Ok b c1 && isCont c2 then
        some ((b - 0xE0) * 4096 + (c1 - 0x80) * 64 + (c2 - 0x80), r2)
      else none
    | _ => none
  else if 0xF0 ≤ b && b ≤ 0xF4 then
    match rest with
    | c1 :: c2 :: c3 :: r2 =>
      if utf8Lead4Ok b c1 && isCont c2 && isCont c3 then
        some ((b - 0xF0) * 262144 + (c1 - 0x80) * 4096 + (c2 - 0x80) * 64 + (c3 - 0x80), r2)
      else none
    | _ => none
  else none

/-- EUC-KR structural model (see the section comment). -/
def euckrOne (b : Nat) (rest : List Nat) : Option (Nat × List Nat) :=
  if b ≤ 0x7F then some (b, rest)
  else if 0xA1 ≤ b && b ≤ 0xFE then
    match rest with
    | t :: r2 => if 0xA1 ≤ t && t ≤ 0xFE then some (0x10000 + b * 256 + t, r2) else none
    | [] => none
  else none

/-- CP949 structural model: lead bytes 0x81..0xFE with the UHC trail ranges. -/
def cp949One (b : Nat) (rest : List Nat) : Option (Nat × List Nat) :=
  if b ≤ 0x7F then some (b, rest)
  else if 0x81 ≤ b && b ≤ 0xFE then
    match rest with
    | t :: r2 =>
      if (0x41 ≤ t && t ≤ 0x5A) || (0x61 ≤ t && t ≤ 0x7A) || (0x81 ≤ t && t ≤ 0xFE) then
        some (0x10000 + b * 256 + t, r2)
      else none
    | [] => none
  else none

/-- The codecs named in the `encodings` list of `_decode_response`. -/
inductive Codec where
  | utf8
  | euckr
  | cp949
deriving DecidableEq, Repr

def decodeOne : Codec → Nat → List Nat → Option (Nat × List Nat)
  | Codec.utf8 => utf8One
  | Codec.euckr => euckrOne
  | Codec.cp949 => cp949One

/-- Strict decoding (`bytes.decode(encoding)`): fails on the first invalid
sequence, like the `UnicodeDecodeError` the source catches.  The fuel is
initialized to the byte count and only bounds the recursion. -/
def strictDecodeAux (c : Codec) : Nat → List Nat → Option (List Nat)
  | _, [] => some []
  | 0, _ :: _ => none
  | fuel + 1, b :: rest =>
    match decodeOne c b rest with
    | some (cp, r2) => (strictDecodeAux c fuel r2).map (fun t => cp :: t)
    | none => none

def strictDecode (c : Codec) (raw : List Nat) : Option (List Nat) :=
  strictDecodeAux c raw.length raw

/-- UTF-8 decoding with an error handler, resynchronizing one byte past an
invalid position: `errors="replace"` emits U+FFFD there, `errors="ignore"`
emits nothing.  (Python groups a maximal invalid subsequence into a single
error; the two agree on the single-byte errors exercised here.) -/
def utf8WithHandler (replacement : Bool) : Nat → List Nat → List Nat
  | _, [] => []
  | 0, _ :: _ => []
  | fuel + 1, b :: rest =>
    match utf8One b rest with
    | some (cp, r2) => cp :: utf8WithHandler replacement fuel r2
    | none =>
      (if replacement then [0xFFFD] else []) ++ utf8WithHandler replacement fuel rest

/-- `raw.decode("utf-8", errors="ignore")` (line 113 of the source). -/
def utf8IgnoreDecode (raw : List Nat) : List Nat :=
  utf8WithHandler false raw.length raw

/-- `raw.decode("utf-8", errors="replace")` — what the specification claims
the fallback to be. -/
def utf8ReplaceDecode (raw : List Nat) : List Nat :=
  utf8WithHandler true raw.length raw

/-- The `encodings` list built in lines 102-105: the Content-Type charset
first when present, then utf-8, euc-kr, cp949. -/
def encodingsList (content_charset : Option Codec) : List Codec :=
  (match content_charset with
   | some c => [c]
   | none => []) ++ [Codec.utf8, Codec.euckr, Codec.cp949]

/-- The `for encoding in encodings: try ... except UnicodeDecodeError:
continue` loop (lines 107-111) with the final fallback of line 113. -/
def tryEncodings : List Codec → List Nat → List Nat
  | [], raw => utf8IgnoreDecode raw
  | e :: rest, raw =>
    match strictDecode e raw with
    | some out => out
    | none => tryEncodings rest raw

/-- `_decode_response` (lines 100-113). -/
def decode_response (content_charset : Option Codec) (raw : List Nat) : List Nat :=
  tryEncodings (encodingsList content_charset) raw

/-! ## Metrics engine (features/metrics.py, `build_snapshot`, lines 48-108)

A ticker's price series (already sorted ascending by date) is a list of
optional rationals per column; a missing cell is `none` (NaN).  pandas
`rolling(w)` uses `min_periods = w` by default: a cell is non-null only
when its trailing window of `w` slots holds `w` non-null observations. -/

/-- The trailing window of at most `w` slots ending at index `i`. -/
def windowSlice (xs : List (Option ℚ)) (w i : Nat) : List (Option ℚ) :=
  (xs.take (i + 1)).drop (i + 1 - w)

/-- `series.rolling(w).agg(f)` with the default `min_periods = w`. -/
def rollingAgg (w : Nat) (f : List ℚ → ℚ) (xs : List (Option ℚ)) : List (Option ℚ) :=
  (List.range xs.length).map (fun i =>
    let obs := (windowSlice xs w i).filterMap id
    if obs.length = w then some (f obs) else none)

def listMean (l : List ℚ) : ℚ := l.sum / (l.length : ℚ)

def listMax : List ℚ → ℚ
  | [] => 0
  | x :: xs => xs.foldl max x

def listMin : List ℚ → ℚ
  | [] => 0
  | x :: xs => xs.foldl min x

/-- Sample variance (pandas `std` uses `ddof = 1`); the source stores the
square root of this value, which is null exactly when this is. -/
def sampleVar (l : List ℚ) : ℚ :=
  (l.map (fun x => (x - listMean l) ^ 2)).sum / ((l.length - 1 : Nat) : ℚ)

/-- `series.pct_change(n)`: null whenever the `n`-period lag does not exist
or either endpoint is null. -/
def pct_change (n : Nat) (xs : List (Option ℚ)) : List (Option ℚ) :=
  (List.range xs.length).map (fun i =>
    if n ≤ i then
      match xs.getD (i - n) none, xs.getD i none with
      | some prev, some cur => some (cur / prev - 1)
      | _, _ => none
    else none)

/-- `g.iloc[-1]` of one computed column: the cell of the last row. -/
def lastCell (xs : List (Option ℚ)) : Option ℚ :=
  xs.getD (xs.length - 1) none

/-- The rolling / momentum cells of a ticker's snapshot row
(metrics.py lines 62-74, keeping `g.iloc[-1]`). -/
structure TickerAggregates where
  sma20 : Option ℚ
  sma50 : Option ℚ
  sma200 : Option ℚ
  avg_value_20d : Option ℚ
  high_52w : Option ℚ
  low_52w : Option ℚ
  vol_20d : Option ℚ
  ret_1w : Option ℚ
  ret_1m : Option ℚ
  ret_3m : Option ℚ
  ret_6m : Option ℚ
  ret_1y : Option ℚ
deriving DecidableEq, Repr

/-- Lines 62-74 of metrics.py for one ticker group: `close` and `value` are
the group's columns in date order; `ret_daily = close.pct_change()` feeds
`vol_20d = ret_daily.rolling(20).std()`. -/
def buildTickerAggregates (close value : List (Option ℚ)) : TickerAggregates :=
  let ret_daily := pct_change 1 close
  { sma20 := lastCell (rollingAgg 20 listMean close)
    sma50 := lastCell (rollingAgg 50 listMean close)
    sma200 := lastCell (rollingAgg 200 listMean close)
    avg_value_20d := lastCell (rollingAgg 20 listMean value)
    high_52w := lastCell (rollingAgg 252 listMax close)
    low_52w := lastCell (rollingAgg 252 listMin close)
    vol_20d := lastCell (rollingAgg 20 sampleVar ret_daily)
    ret_1w := lastCell (pct_change 5 close)
    ret_1m := lastCell (pct_change 21 close)
    ret_3m := lastCell (pct_change 63 close)
    ret_6m := lastCell (pct_change 126 close)
    ret_1y := lastCell (pct_change 252 close) }

/-! ## OHLCV normalization (collectors/pykrx_client.py, lines 24-57)

A frame is its named columns with cells that are already
numeric-or-null; `pd.to_numeric(..., errors="coerce")` is the identity on
this representation. -/

abbrev Frame := List (String × List (Option ℚ))

def frameCols (f : Frame) : List String := f.map Prod.fst

/-- The frame's row count (the length of its index). -/
def frameHeight (f : Frame) : Nat :=
  match f with
  | [] => 0
  | (_, c) :: _ => c.length

def getCol (f : Frame) (name : String) : List (Option ℚ) :=
  ((f.find? (fun p => p.fst == name)).map Prod.snd).getD []

/-- The fixed candidate-name lists of `_normalize_ohlcv` (lines 33-40). -/
def colmap (target : String) : List String :=
  match target with
  | "open" => ["시가", "Open", "open"]
  | "high" => ["고가", "High", "high"]
  | "low" => ["저가", "Low", "low"]
  | "close" => ["종가", "Close", "close"]
  | "volume" => ["거래량", "Volume", "volume"]
  | "value" => ["거래대금", "거래대금(원)", "거래대금(백만원)", "Value", "value"]
  | _ => []

/-- `_pick_column` (lines 24-29): the first candidate present in the frame. -/
def pick_column (cols : List String) (candidates : List String) : Option String :=
  candidates.find? (fun name => cols.contains name)

/-- The required targets, in the iteration order of line 45. -/
def required_targets : List String := ["open", "high", "low", "close", "volume"]

/-- The `missing_required` list accumulated by the loop of lines 45-50. -/
def missingRequired (f : Frame) : List String :=
  required_targets.filter (fun t => (pick_column (frameCols f) (colmap t)).isNone)

def singleQuote : String := (Char.ofNat 39).toString

/-- Python `repr` of a list of strings, element part. -/
def pyReprAux : List String → String
  | [] => ""
  | [s] => singleQuote ++ s ++ singleQuote
  | s :: rest => singleQuote ++ s ++ singleQuote ++ ", " ++ pyReprAux rest

def pyListRepr (l : List String) : String := "[" ++ pyReprAux l ++ "]"

/-- The `KeyError` message of line 53, with Python's f-string list
formatting. -/
def missingMessage (f : Frame) : String :=
  "Missing required OHLCV columns: " ++ pyListRepr (missingRequired f) ++
    ". available=" ++ pyListRepr (frameCols f)

/-- `_normalize_ohlcv` (lines 31-57): resolve each required target from its
candidates, fail with the KeyError message when any is missing, and store
the optional `value` column as an all-null column when absent. -/
def normalize_ohlcv (f : Frame) : Except String Frame :=
  let outRequired := required_targets.filterMap
    (fun t => (pick_column (frameCols f) (colmap t)).map (fun src => (t, getCol f src)))
  if !(missingRequired f).isEmpty then Except.error (missingMessage f)
  else
    let valueCol :=
      match pick_column (frameCols f) (colmap "value") with
      | some src => getCol f src
      | none => List.replicate (frameHeight f) none
    Except.ok (outRequired ++ [("value", valueCol)])

/-- The trivial fault oracle: no injected insert failures. -/
def noFail : Nat → Bool := fun _ => false

/-! ## Theorems -/

theorem rowsAt_deleteAsof (st : SnapStore) (a : String) :
    rowsAt (deleteAsof st a) a = [] := by
  induction st with
  | nil => rfl
  | cons r rest ih =>
    by_cases h : r.asof_date = a
    · simpa [deleteAsof, rowsAt, h] using ih
    · simpa [deleteAsof, rowsAt, h, List.filter_cons] using ih

theorem insertRows_ok_shape (fail : Nat → Bool) :
    ∀ (rows : List SnapRow) (i : Nat) (conn conn2 : SnapStore),
      insertRows fail i conn rows = Except.ok conn2 → conn2 = conn ++ rows := by
  intro rows
  induction rows with
  | nil =>
    intro i conn conn2 h
    simp [insertRows] at h
    simp [h.symm]
  | cons r rest ih =>
    intro i conn conn2 h
    by_cases hf : fail i
    · simp [insertRows, hf] at h
    · simp only [insertRows, hf, if_false] at h
      unfold insertRow at h
      by_cases hdup : conn.any (fun x => x.asof_date == r.asof_date && x.ticker == r.ticker)
      · simp [hdup] at h
      · simp only [hdup, if_false] at h
        have := ih (i + 1) (conn ++ [r]) conn2 h
        simpa using this

theorem replace_snapshot_ok_shape (fail : Nat → Bool) (st : SnapStore) (a : String)
    (rows : List SnapRow) (n : Nat)
    (h : (replace_snapshot fail st a rows).snd = Except.ok n) :
    (replace_snapshot fail st a rows).fst = deleteAsof st a ++ rows := by
  unfold replace_snapshot db_session replace_snapshot_body
  by_cases he : rows.isEmpty
  · have : rows = [] := List.isEmpty_iff.mp he
    simp [this]
  · simp only [he, if_false]
    cases hins : insertRows fail 0 (deleteAsof st a) rows with
    | error e =>
      exfalso
      unfold replace_snapshot db_session replace_snapshot_body at h
      simp [he, hins] at h
    | ok conn2 =>
      simp only
      exact insertRows_ok_shape fail rows 0 (deleteAsof st a) conn2 hins

theorem rowsAt_append (x y : SnapStore) (a : String) :
    rowsAt (x ++ y) a = rowsAt x a ++ rowsAt y a :=
  List.filter_append _ _

theorem rowsAt_of_all (rows : List SnapRow) (a : String)
    (hA : ∀ r ∈ rows, r.asof_date = a) : rowsAt rows a = rows := by
  unfold rowsAt
  rw [List.filter_eq_self]
  intro r hr
  simp [hA r hr]

theorem rowsNotAt_of_all (rows : List SnapRow) (a : String)
    (hA : ∀ r ∈ rows, r.asof_date = a) : rowsNotAt rows a = [] := by
  unfold rowsNotAt
  rw [List.filter_eq_nil_iff]
  intro r hr
  simp [hA r hr]

theorem rowsNotAt_deleteAsof (st : SnapStore) (a : String) :
    rowsNotAt (deleteAsof st a) a = rowsNotAt st a := by
  induction st with
  | nil => rfl
  | cons r rest ih =>
    by_cases h : r.asof_date = a
    · simpa [deleteAsof, rowsNotAt, h] using ih
    · simpa [deleteAsof, rowsNotAt, h, List.filter_cons] using ih

/-- C1.  `replace_snapshot(asof, rows)` is atomic: the session deletes the
rows at `asof` and inserts the new set, and when any insert fails — whether
a primary-key conflict or an injected environment fault — nothing is
committed: the store is exactly the pre-call store, and in particular the
snapshot rows at `asof` keep their count and content. -/
theorem replace_snapshot_atomic_on_failure (fail : Nat → Bool) (st : SnapStore)
    (a : String) (rows : List SnapRow)
    (herr : (replace_snapshot fail st a rows).snd = Except.error ()) :
    (replace_snapshot fail st a rows).fst = st ∧
    rowsAt (replace_snapshot fail st a rows).fst a = rowsAt st a ∧
    countAt (replace_snapshot fail st a rows).fst a = countAt st a := by
  have hfst : (replace_snapshot fail st a rows).fst = st := by
    unfold replace_snapshot db_session at herr ⊢
    cases h : replace_snapshot_body fail a rows st with
    | ok p => rw [h] at herr; simp at herr
    | error e => rfl
  exact ⟨hfst, by rw [hfst], by rw [hfst]⟩

/-- Witness for C1: replacing the 2024-01-02 snapshot with a frame holding
a duplicated `(asof_date, ticker)` key fails on the second insert and
leaves the previously stored row intact. -/
theorem replace_snapshot_atomic_on_failure_witness :
    (replace_snapshot noFail [⟨"2024-01-02", "AAA", []⟩] "2024-01-02"
        [⟨"2024-01-02", "BBB", []⟩, ⟨"2024-01-02", "BBB", []⟩]).snd = Except.error () ∧
    (replace_snapshot noFail [⟨"2024-01-02", "AAA", []⟩] "2024-01-02"
        [⟨"2024-01-02", "BBB", []⟩, ⟨"2024-01-02", "BBB", []⟩]).fst =
      [⟨"2024-01-02", "AAA", []⟩] :=
  ⟨rfl,
    (replace_snapshot_atomic_on_failure noFail [⟨"2024-01-02", "AAA", []⟩] "2024-01-02"
      [⟨"2024-01-02", "BBB", []⟩, ⟨"2024-01-02", "BBB", []⟩] rfl).1⟩

/-- C2 counterexample.  The INSERT of `replace_snapshot` stores each frame
row under the frame's own `asof_date` cell, not under the `asof_date`
parameter: a successful call with a row dated 2024-01-03 and parameter
2024-01-02 leaves zero rows at the parameter date (the claim requires
`len(rows) = 1`) and modifies the rows of the other date. -/
theorem replace_snapshot_param_asof_cex :
    (replace_snapshot noFail [] "2024-01-02" [⟨"2024-01-03", "AAA", []⟩]).snd = Except.ok 1 ∧
    countAt (replace_snapshot noFail [] "2024-01-02" [⟨"2024-01-03", "AAA", []⟩]).fst
        "2024-01-02" = 0 ∧
    rowsAt (replace_snapshot noFail [] "2024-01-02" [⟨"2024-01-03", "AAA", []⟩]).fst
        "2024-01-03" ≠ rowsAt ([] : SnapStore) "2024-01-03" := by
  refine ⟨rfl, rfl, ?_⟩
  decide

/-- C2 (amended).  When every frame row carries `asof_date = a` — as the
snapshot builder guarantees by stamping the frame — a successful
`replace_snapshot(a, rows)` leaves exactly `rows.length` rows at `a` and
the rows of every other as-of date unchanged. -/
theorem replace_snapshot_frame_amended (fail : Nat → Bool) (st : SnapStore)
    (a : String) (rows : List SnapRow)
    (hA : ∀ r ∈ rows, r.asof_date = a)
    (hOk : ∃ n, (replace_snapshot fail st a rows).snd = Except.ok n) :
    countAt (replace_snapshot fail st a rows).fst a = rows.length ∧
    rowsNotAt (replace_snapshot fail st a rows).fst a = rowsNotAt st a := by
  obtain ⟨n, hn⟩ := hOk
  have hshape := replace_snapshot_ok_shape fail st a rows n hn
  constructor
  · rw [hshape]
    unfold countAt
    rw [rowsAt_append, rowsAt_deleteAsof, rowsAt_of_all rows a hA]
    simp
  · rw [hshape]
    have h1 := rowsNotAt_deleteAsof st a
    have h2 := rowsNotAt_of_all rows a hA
    unfold rowsNotAt at h1 h2 ⊢
    rw [List.filter_append, h1, h2, List.append_nil]

/-- Witness for the amended C2 at a concrete store and frame. -/
theorem replace_snapshot_frame_amended_witness :
    (∀ r ∈ [(⟨"2024-01-02", "BBB", []⟩ : SnapRow)], r.asof_date = "2024-01-02") ∧
    (∃ n, (replace_snapshot noFail [⟨"2024-01-01", "AAA", []⟩] "2024-01-02"
        [⟨"2024-01-02", "BBB", []⟩]).snd = Except.ok n) ∧
    (countAt (replace_snapshot noFail [⟨"2024-01-01", "AAA", []⟩] "2024-01-02"
        [⟨"2024-01-02", "BBB", []⟩]).fst "2024-01-02" = 1 ∧
     rowsNotAt (replace_snapshot noFail [⟨"2024-01-01", "AAA", []⟩] "2024-01-02"
        [⟨"2024-01-02", "BBB", []⟩]).fst "2024-01-02" =
       rowsNotAt [⟨"2024-01-01", "AAA", []⟩] "2024-01-02") :=
  ⟨by decide, ⟨1, rfl⟩,
    replace_snapshot_frame_amended noFail [⟨"2024-01-01", "AAA", []⟩] "2024-01-02"
      [⟨"2024-01-02", "BBB", []⟩] (by decide) ⟨1, rfl⟩⟩

/-- C10.  `replace_snapshot(asof, empty_frame)` still deletes, and commits
the deletion of, every stored row at `asof` (the `return 0` happens inside
the session, whose commit runs on normal exit), returning 0; by contrast
`upsert_prices` returns 0 on an empty frame without touching the store. -/
theorem replace_snapshot_empty_commits_delete (fail : Nat → Bool) (st : SnapStore)
    (a : String) (pst : PriceStore) :
    replace_snapshot fail st a [] = (deleteAsof st a, Except.ok 0) ∧
    countAt (replace_snapshot fail st a []).fst a = 0 ∧
    upsert_prices pst [] = (pst, 0) := by
  refine ⟨rfl, ?_, rfl⟩
  show countAt (deleteAsof st a) a = 0
  unfold countAt
  rw [rowsAt_deleteAsof]
  rfl

theorem ensure_column_contains_other (t : SqlTable) (c c2 : String) (h : c ≠ c2) :
    (ensure_column t c).columns.contains c2 = t.columns.contains c2 := by
  by_cases hc : c ∈ t.columns
  · simp [ensure_column, hc]
  · simp [ensure_column, hc, Ne.symm h]

/-- C3.  After `init_db` the snapshot table holds the four columns the
migration ensures (`dps`, `near_52w_high_ratio`, `eps_cagr_5y`,
`eps_yoy_q`) but never a `reserve_ratio` column: a fresh database lacks it,
and on any pre-existing table `init_db` leaves its presence unchanged —
contradicting the claim (and the web layer, which filters the snapshot
frame by its `reserve_ratio` column). -/
theorem init_db_reserve_column_missing :
    ((init_db_snapshot none).columns.contains "dps" = true ∧
     (init_db_snapshot none).columns.contains "near_52w_high_ratio" = true ∧
     (init_db_snapshot none).columns.contains "eps_cagr_5y" = true ∧
     (init_db_snapshot none).columns.contains "eps_yoy_q" = true) ∧
    (init_db_snapshot none).columns.contains "reserve_ratio" = false ∧
    (∀ t : SqlTable, (init_db_snapshot (some t)).columns.contains "reserve_ratio" =
       t.columns.contains "reserve_ratio") := by
  refine ⟨by decide, by decide, ?_⟩
  intro t
  unfold init_db_snapshot create_snapshot_table
  rw [ensure_column_contains_other _ _ _ (by decide),
      ensure_column_contains_other _ _ _ (by decide),
      ensure_column_contains_other _ _ _ (by decide),
      ensure_column_contains_other _ _ _ (by decide)]

/-- C4.  On every execution path (with or without an `asof` argument, with
a populated or an empty ticker table), the first repository attribute the
reserve-only pipeline accesses that is missing from `Repository` is
`get_active_tickers`, so the pipeline raises `AttributeError` before doing
any work; `upsert_reserve_ratio`, which every path would need next, is
missing as well. -/
theorem update_reserve_only_missing_repo_method :
    (∀ asofGiven tickersEmpty : Bool,
       first_missing_repo_call asofGiven tickersEmpty = some "get_active_tickers") ∧
    repository_methods.contains "get_active_tickers" = false ∧
    repository_methods.contains "upsert_reserve_ratio" = false ∧
    (∀ asofGiven tickersEmpty : Bool,
       "upsert_reserve_ratio" ∈ update_reserve_call_order asofGiven tickersEmpty) :=
  ⟨by decide, by decide, by decide, by decide⟩

/-- C6 counterexample.  The header row with cells "133,443.80" and
"120,000.00" does NOT yield `(120000.0, success)`: 120000 lies outside the
keep-filter `[-1000, 100000]` of `_parse_valid_numbers`, exactly like
133443.8. -/
theorem row_parse_range_cex :
    extract_from_row_cells ["133,443.80", "120,000.00"] ≠
      (some 120000, ParseStatus.success) := by
  decide

/-- C6 (amended).  Row-based parsing of the header row with cells
"133,443.80" and "120,000.00" returns `(null, parse_error)`: both literals
parse (to 133443.8 and 120000.0 exactly) but the numeric filter keeping
only values in `[-1000, 100000]` drops both, leaving no value to select. -/
theorem row_parse_range_filtered :
    extract_from_row_cells ["133,443.80", "120,000.00"] = (none, ParseStatus.parse_error) ∧
    parse_valid_numbers (findNumbers "133,443.80".data ++ findNumbers "120,000.00".data) = [] ∧
    pyFloat "133443.80".data = some (mkRat 13344380 100) ∧
    pyFloat "120000.00".data = some 120000 :=
  ⟨by decide, by decide, by decide, by decide⟩

theorem tryEncodings_spec (raw : List Nat) :
    ∀ l : List Codec,
      (∃ pre e post, l = pre ++ e :: post ∧
          (∀ e2 ∈ pre, strictDecode e2 raw = none) ∧
          strictDecode e raw = some (tryEncodings l raw)) ∨
      ((∀ e ∈ l, strictDecode e raw = none) ∧
          tryEncodings l raw = utf8IgnoreDecode raw) := by
  intro l
  induction l with
  | nil =>
    right
    constructor
    · intro e he
      exact absurd he (List.not_mem_nil e)
    · rfl
  | cons e rest ih =>
    cases hd : strictDecode e raw with
    | some out =>
      left
      refine ⟨[], e, rest, rfl, ?_, ?_⟩
      · intro e2 he2
        exact absurd he2 (List.not_mem_nil e2)
      · simp [tryEncodings, hd]
    | none =>
      have hstep : tryEncodings (e :: rest) raw = tryEncodings rest raw := by
        simp [tryEncodings, hd]
      cases ih with
      | inl h =>
        obtain ⟨pre, e0, post, hsplit, hpre, hsome⟩ := h
        left
        refine ⟨e :: pre, e0, post, by rw [hsplit, List.cons_append], ?_, ?_⟩
        · intro e2 he2
          cases he2 with
          | head => exact hd
          | tail _ htl => exact hpre e2 htl
        · rw [hstep]; exact hsome
      | inr h =>
        right
        refine ⟨?_, by rw [hstep]; exact h.2⟩
        intro e2 he2
        cases he2 with
        | head => exact hd
        | tail _ htl => exact h.1 e2 htl

/-- C9 (amended).  `_decode_response` tries the encodings in order —
Content-Type charset when present, then utf-8, euc-kr, cp949 — and returns
the first strict decoding that succeeds; when every attempt fails it falls
back to UTF-8 with invalid bytes IGNORED (dropped), not replaced, and is
total by construction. -/
theorem decode_first_success_or_ignore_fallback (cc : Option Codec) (raw : List Nat) :
    (∃ pre e post, encodingsList cc = pre ++ e :: post ∧
        (∀ e2 ∈ pre, strictDecode e2 raw = none) ∧
        strictDecode e raw = some (decode_response cc raw)) ∨
    ((∀ e ∈ encodingsList cc, strictDecode e raw = none) ∧
        decode_response cc raw = utf8IgnoreDecode raw) :=
  tryEncodings_spec raw (encodingsList cc)

/-- C9 counterexample.  On the single byte 0xFF with no Content-Type
charset every strict decode fails, and the fallback of the code
(`errors="ignore"`) returns the empty string, whereas the claimed fallback
(`errors="replace"`) would return U+FFFD — the claim is false at this
input. -/
theorem decode_fallback_not_replace_cex :
    decode_response none [0xFF] = [] ∧
    utf8ReplaceDecode [0xFF] = [0xFFFD] ∧
    decode_response none [0xFF] ≠ utf8ReplaceDecode [0xFF] :=
  ⟨by decide, by decide, by decide⟩

theorem bool_eq_false {b : Bool} (h : ¬b = true) : b = false := by
  cases b
  · rfl
  · exact absurd rfl h

theorem find_cons_true {α : Type} (p : α → Bool) (a : α) (l : List α) (h : p a = true) :
    List.find? p (a :: l) = some a := by
  simp [List.find?, h]

theorem find_cons_false {α : Type} (p : α → Bool) (a : α) (l : List α) (h : p a = false) :
    List.find? p (a :: l) = List.find? p l := by
  simp [List.find?, h]

theorem findDict_map_self (t : String) (v : ℚ) :
    ∀ rest : List (String × ℚ), rest.any (fun p => p.fst == t) = true →
      List.find? (fun p => p.fst == t)
        (rest.map (fun p => if p.fst == t then (t, v) else p)) = some (t, v) := by
  intro rest
  induction rest with
  | nil => intro h; simp at h
  | cons q rs ih =>
    intro h
    by_cases hq : (q.fst == t) = true
    · rw [List.map_cons, if_pos hq]
      exact find_cons_true (fun p => p.fst == t) (t, v) _ (by simp)
    · rw [List.map_cons, if_neg hq]
      rw [find_cons_false (fun p => p.fst == t) q _ (bool_eq_false hq)]
      apply ih
      simp only [List.any_cons, Bool.or_eq_true] at h
      rcases h with h1 | h2
      · exact absurd h1 hq
      · exact h2

theorem findDict_append_self (t : String) (v : ℚ) :
    ∀ rest : List (String × ℚ), rest.any (fun p => p.fst == t) = false →
      List.find? (fun p => p.fst == t) (rest ++ [(t, v)]) = some (t, v) := by
  intro rest
  induction rest with
  | nil => intro h; exact find_cons_true (fun p => p.fst == t) (t, v) _ (by simp)
  | cons q rs ih =>
    intro h
    simp only [List.any_cons, Bool.or_eq_false_iff] at h
    rw [List.cons_append, find_cons_false (fun p => p.fst == t) q _ h.1]
    exact ih h.2

theorem findDict_map_other (t u : String) (v : ℚ) (hne : u ≠ t) :
    ∀ d : List (String × ℚ),
      List.find? (fun p => p.fst == u) (d.map (fun p => if p.fst == t then (t, v) else p)) =
        List.find? (fun p => p.fst == u) d := by
  intro d
  induction d with
  | nil => rfl
  | cons q rs ih =>
    rw [List.map_cons]
    by_cases hq : (q.fst == t) = true
    · have hqt : q.fst = t := by simpa using hq
      rw [if_pos hq, find_cons_false (fun p => p.fst == u) (t, v) _ (by simp [Ne.symm hne]),
          find_cons_false (fun p => p.fst == u) q _ (by simp [hqt, Ne.symm hne])]
      exact ih
    · rw [if_neg hq]
      by_cases hqu : (q.fst == u) = true
      · rw [find_cons_true (fun p => p.fst == u) q _ hqu,
            find_cons_true (fun p => p.fst == u) q _ hqu]
      · rw [find_cons_false (fun p => p.fst == u) q _ (bool_eq_false hqu),
            find_cons_false (fun p => p.fst == u) q _ (bool_eq_false hqu)]
        exact ih

theorem lookupDict_insertDict_self (t : String) (v : ℚ) (d : List (String × ℚ)) :
    lookupDict (insertDict d t v) t = some v := by
  unfold insertDict lookupDict
  by_cases hd : d.any (fun p => p.fst == t) = true
  · rw [if_pos hd, findDict_map_self t v d hd]
    rfl
  · rw [if_neg hd, findDict_append_self t v d (bool_eq_false hd)]
    rfl

theorem lookupDict_insertDict_ne (t u : String) (v : ℚ) (hne : u ≠ t)
    (d : List (String × ℚ)) :
    lookupDict (insertDict d t v) u = lookupDict d u := by
  unfold insertDict lookupDict
  by_cases hd : d.any (fun p => p.fst == t) = true
  · rw [if_pos hd, findDict_map_other t u v hne d]
  · rw [if_neg hd, List.find?_append]
    have h1 : List.find? (fun p => p.fst == u) [(t, v)] = none := by
      simp [Ne.symm hne]
    rw [h1]
    cases List.find? (fun p => p.fst == u) d <;> rfl

theorem lookupDict_collect (outcome : String → Option ℚ) (t : String) :
    ∀ (completed : List (String × Option ℚ)) (d : List (String × ℚ)),
      (∀ p ∈ completed, p.snd = outcome p.fst) →
      lookupDict (completed.foldl (fun d p =>
          match p.snd with
          | some v => insertDict d p.fst v
          | none => d) d) t =
        (if completed.any (fun p => p.fst == t && p.snd.isSome) then outcome t
         else lookupDict d t) := by
  intro completed
  induction completed with
  | nil =>
    intro d h
    simp
  | cons p rest ih =>
    intro d h
    have hp : p.snd = outcome p.fst := h p (List.mem_cons_self p rest)
    have hrest : ∀ q ∈ rest, q.snd = outcome q.fst :=
      fun q hq => h q (List.mem_cons_of_mem p hq)
    rw [List.foldl_cons, ih _ hrest]
    by_cases hany : rest.any (fun p => p.fst == t && p.snd.isSome) = true
    · rw [if_pos hany, if_pos (by simp [List.any_cons, hany])]
    · have hanyf := bool_eq_false hany
      rw [if_neg hany]
      cases hps : p.snd with
      | none =>
        have hcond : (p :: rest).any (fun p => p.fst == t && p.snd.isSome) = false := by
          simp [List.any_cons, hanyf, hps]
        rw [if_neg (by rw [hcond]; exact Bool.false_ne_true)]
      | some v =>
        by_cases hpt : (p.fst == t) = true
        · have hptEq : p.fst = t := by simpa using hpt
          have hcond : (p :: rest).any (fun p => p.fst == t && p.snd.isSome) = true := by
            simp [List.any_cons, hpt, hps]
          rw [if_pos hcond]
          show lookupDict (insertDict d p.fst v) t = outcome t
          rw [hptEq, lookupDict_insertDict_self, ← hptEq, ← hp, hps]
        · have hptf := bool_eq_false hpt
          have hcond : (p :: rest).any (fun p => p.fst == t && p.snd.isSome) = false := by
            simp [List.any_cons, hptf, hanyf]
          rw [if_neg (by rw [hcond]; exact Bool.false_ne_true)]
          show lookupDict (insertDict d p.fst v) t = lookupDict d t
          have hne2 : t ≠ p.fst := by
            intro he
            subst he
            simp at hptf
          exact lookupDict_insertDict_ne p.fst t v hne2 d

/-- C5.  For every ticker list, per-ticker outcome function and worker
count `max_workers ≥ 1`, and for EVERY completion order of the concurrent
tasks (any permutation of the per-ticker results, covering arbitrary
per-ticker delays), the scraper's result rows are exactly the tickers
whose extraction succeeded, in the relative order of the input list; the
pool size is clamped to at least one worker. -/
theorem reserve_rows_input_order (tickers : List String) (outcome : String → Option ℚ)
    (completed : List (String × Option ℚ)) (max_workers : Nat)
    (hmw : 1 ≤ max_workers)
    (hperm : completed.Perm (tickers.map (fun t => (t, outcome t)))) :
    reserve_rows tickers completed =
      tickers.filterMap (fun t => (outcome t).map (fun v => (t, v))) ∧
    1 ≤ worker_count max_workers tickers.length := by
  refine ⟨?_, le_max_left 1 _⟩
  have h1 : ∀ p ∈ completed, p.snd = outcome p.fst := by
    intro p hp
    have hmem := hperm.subset hp
    obtain ⟨t, _, rfl⟩ := List.mem_map.mp hmem
    rfl
  have hlook : ∀ t : String, lookupDict (collectRows completed) t =
      (if completed.any (fun p => p.fst == t && p.snd.isSome) then outcome t
       else none) := by
    intro t
    exact lookupDict_collect outcome t completed [] h1
  have hany : ∀ t ∈ tickers,
      completed.any (fun p => p.fst == t && p.snd.isSome) = (outcome t).isSome := by
    intro t ht
    cases hout : outcome t with
    | some v =>
      have hmem : (t, outcome t) ∈ completed :=
        (hperm.mem_iff).mpr (List.mem_map_of_mem _ ht)
      rw [hout] at hmem
      simp only [Option.isSome_some]
      rw [List.any_eq_true]
      exact ⟨(t, some v), hmem, by simp⟩
    | none =>
      simp only [Option.isSome_none]
      apply bool_eq_false
      intro hcontra
      rw [List.any_eq_true] at hcontra
      obtain ⟨p, hpmem, hpred⟩ := hcontra
      have heq : p.fst = t ∧ p.snd.isSome = true := by
        constructor
        · have := (Bool.and_eq_true _ _).mp hpred
          simpa using this.1
        · exact ((Bool.and_eq_true _ _).mp hpred).2
      have := h1 p hpmem
      rw [heq.1, hout] at this
      rw [this] at heq
      simp at heq
  have hlook2 : ∀ t ∈ tickers, lookupDict (collectRows completed) t = outcome t := by
    intro t ht
    rw [hlook t, hany t ht]
    cases outcome t <;> simp
  unfold reserve_rows
  by_cases hrows : (collectRows completed).isEmpty
  · simp only [hrows, if_true]
    symm
    rw [List.filterMap_eq_nil_iff]
    intro t ht
    cases hout : outcome t with
    | none => rfl
    | some v =>
      exfalso
      have := hlook2 t ht
      rw [hout] at this
      have hempty : collectRows completed = [] := List.isEmpty_iff.mp hrows
      rw [hempty] at this
      simp [lookupDict] at this
  · simp only [hrows, if_false]
    apply List.filterMap_congr
    intro t ht
    rw [hlook2 t ht]

/-- Witness for C5: the spec's concurrency-order scenario — tickers
["1","2","3"] where "2" fails, results arriving in reversed completion
order, `max_workers = 4` — still yields the rows for "1" then "3". -/
theorem reserve_rows_input_order_witness :
    (1 ≤ 4) ∧
    ((["1", "2", "3"].map (fun t =>
        (t, if t == "1" then some (30 : ℚ) else if t == "2" then none else some 10))).reverse.Perm
      (["1", "2", "3"].map (fun t =>
        (t, if t == "1" then some (30 : ℚ) else if t == "2" then none else some 10)))) ∧
    (reserve_rows ["1", "2", "3"]
        (["1", "2", "3"].map (fun t =>
          (t, if t == "1" then some (30 : ℚ) else if t == "2" then none else some 10))).reverse =
      ["1", "2", "3"].filterMap (fun t =>
        ((if t == "1" then some (30 : ℚ) else if t == "2" then none else some 10)).map
          (fun v => (t, v))) ∧
     1 ≤ worker_count 4 (["1", "2", "3"] : List String).length) ∧
    (["1", "2", "3"].filterMap (fun t =>
        ((if t == "1" then some (30 : ℚ) else if t == "2" then none else some 10)).map
          (fun v => (t, v))) = [("1", 30), ("3", 10)]) :=
  ⟨by norm_num, List.reverse_perm _,
    reserve_rows_input_order ["1", "2", "3"]
      (fun t => if t == "1" then some (30 : ℚ) else if t == "2" then none else some 10)
      _ 4 (by norm_num) (List.reverse_perm _),
    by decide⟩

theorem windowSlice_length_le (xs : List (Option ℚ)) (w i : Nat) :
    (windowSlice xs w i).length ≤ xs.length := by
  unfold windowSlice
  simp [List.length_drop, List.length_take]

theorem rollingAgg_cell_none (w : Nat) (f : List ℚ → ℚ) (xs : List (Option ℚ))
    (h : xs.length < w) : ∀ c ∈ rollingAgg w f xs, c = none := by
  intro c hc
  unfold rollingAgg at hc
  obtain ⟨i, hi, hcell⟩ := List.mem_map.mp hc
  by_cases hlen : ((windowSlice xs w i).filterMap id).length = w
  · exfalso
    have h1 : ((windowSlice xs w i).filterMap id).length ≤ (windowSlice xs w i).length :=
      List.length_filterMap_le _ _
    have h2 := windowSlice_length_le xs w i
    omega
  · rw [← hcell]
    simp [hlen]

theorem lastCell_none_of_all (xs : List (Option ℚ)) (h : ∀ c ∈ xs, c = none) :
    lastCell xs = none := by
  unfold lastCell
  rw [List.getD_eq_getElem?_getD]
  cases hx : xs[xs.length - 1]? with
  | none => rfl
  | some c => exact h c (List.getElem?_mem hx)

theorem lastCell_map_range (g : Nat → Option ℚ) (n : Nat) (hn : 0 < n) :
    lastCell ((List.range n).map g) = g (n - 1) := by
  unfold lastCell
  rw [List.getD_eq_getElem?_getD]
  have hlen : ((List.range n).map g).length = n := by simp
  rw [hlen]
  rw [List.getElem?_map]
  rw [List.getElem?_range (by omega)]
  rfl

theorem pct_change_length (n : Nat) (xs : List (Option ℚ)) :
    (pct_change n xs).length = xs.length := by
  unfold pct_change
  simp

theorem lastCell_pct_change_none (n : Nat) (xs : List (Option ℚ))
    (h : xs.length < n + 1) : lastCell (pct_change n xs) = none := by
  by_cases hz : xs.length = 0
  · unfold pct_change
    rw [hz]
    rfl
  · unfold pct_change
    rw [lastCell_map_range _ _ (Nat.pos_of_ne_zero hz)]
    have hnn : ¬n ≤ xs.length - 1 := by omega
    simp [hnn]

theorem lastCell_rollingAgg_short (w : Nat) (f : List ℚ → ℚ) (xs : List (Option ℚ))
    (h : xs.length < w) : lastCell (rollingAgg w f xs) = none :=
  lastCell_none_of_all _ (rollingAgg_cell_none w f xs h)

theorem lastCell_vol20_none (f : List ℚ → ℚ) (close : List (Option ℚ))
    (h : close.length < 21) :
    lastCell (rollingAgg 20 f (pct_change 1 close)) = none := by
  by_cases hlt : close.length < 20
  · apply lastCell_rollingAgg_short
    rw [pct_change_length]
    exact hlt
  · have h20 : close.length = 20 := by omega
    unfold rollingAgg
    rw [pct_change_length, h20]
    rw [lastCell_map_range _ 20 (by norm_num)]
    have hws : windowSlice (pct_change 1 close) 20 (20 - 1) = pct_change 1 close := by
      unfold windowSlice
      have hl : (pct_change 1 close).length = 20 := by rw [pct_change_length, h20]
      rw [List.take_of_length_le (by omega)]
      rfl
    rw [hws]
    have hobs : ((pct_change 1 close).filterMap id).length ≤ 19 := by
      unfold pct_change
      rw [List.filterMap_map, h20]
      rw [List.range_succ_eq_map]
      rw [List.filterMap_cons]
      have hg0 : (id ∘ fun i => if 1 ≤ i then
          match close.getD (i - 1) none, close.getD i none with
          | some prev, some cur => some (cur / prev - 1)
          | _, _ => none
        else none) 0 = (none : Option ℚ) := by
        simp
      rw [hg0]
      calc ((List.map Nat.succ (List.range 19)).filterMap _).length
          ≤ (List.map Nat.succ (List.range 19)).length := List.length_filterMap_le _ _
        _ = 19 := by simp
    have hne : ¬((pct_change 1 close).filterMap id).length = 20 := by omega
    simp [hne]

/-- C7.  In the snapshot row of a ticker whose price series has fewer
observations than a rolling window, that window's cell is null: `sma20`
and `avg_value_20d` need 20 rows, `sma50` 50, `sma200` 200,
`high_52w`/`low_52w` 252; `vol_20d` needs 20 daily-return observations
(21 price rows); and `ret_1w/1m/3m/6m/1y` need the 5/21/63/126/252-period
lag to exist. -/
theorem rolling_short_window_null (close value : List (Option ℚ))
    (hv : value.length = close.length) :
    (close.length < 20 → (buildTickerAggregates close value).sma20 = none ∧
       (buildTickerAggregates close value).avg_value_20d = none) ∧
    (close.length < 50 → (buildTickerAggregates close value).sma50 = none) ∧
    (close.length < 200 → (buildTickerAggregates close value).sma200 = none) ∧
    (close.length < 252 → (buildTickerAggregates close value).high_52w = none ∧
       (buildTickerAggregates close value).low_52w = none) ∧
    (close.length < 21 → (buildTickerAggregates close value).vol_20d = none) ∧
    (close.length < 6 → (buildTickerAggregates close value).ret_1w = none) ∧
    (close.length < 22 → (buildTickerAggregates close value).ret_1m = none) ∧
    (close.length < 64 → (buildTickerAggregates close value).ret_3m = none) ∧
    (close.length < 127 → (buildTickerAggregates close value).ret_6m = none) ∧
    (close.length < 253 → (buildTickerAggregates close value).ret_1y = none) := by
  unfold buildTickerAggregates
  refine ⟨fun h => ⟨?_, ?_⟩, fun h => ?_, fun h => ?_, fun h => ⟨?_, ?_⟩, fun h => ?_,
    fun h => ?_, fun h => ?_, fun h => ?_, fun h => ?_, fun h => ?_⟩
  · exact lastCell_rollingAgg_short 20 _ close h
  · exact lastCell_rollingAgg_short 20 _ value (by omega)
  · exact lastCell_rollingAgg_short 50 _ close h
  · exact lastCell_rollingAgg_short 200 _ close h
  · exact lastCell_rollingAgg_short 252 _ close h
  · exact lastCell_rollingAgg_short 252 _ close h
  · exact lastCell_vol20_none sampleVar close h
  · exact lastCell_pct_change_none 5 close h
  · exact lastCell_pct_change_none 21 close h
  · exact lastCell_pct_change_none 63 close h
  · exact lastCell_pct_change_none 126 close h
  · exact lastCell_pct_change_none 252 close h

/-- Witness for C7: a three-row price series leaves every rolling and
momentum cell of the snapshot row null. -/
theorem rolling_short_window_null_witness :
    (buildTickerAggregates [some 1, some 2, some 3] [some 4, some 5, some 6]).sma20 = none ∧
    (buildTickerAggregates [some 1, some 2, some 3] [some 4, some 5, some 6]).avg_value_20d = none ∧
    (buildTickerAggregates [some 1, some 2, some 3] [some 4, some 5, some 6]).sma50 = none ∧
    (buildTickerAggregates [some 1, some 2, some 3] [some 4, some 5, some 6]).sma200 = none ∧
    (buildTickerAggregates [some 1, some 2, some 3] [some 4, some 5, some 6]).high_52w = none ∧
    (buildTickerAggregates [some 1, some 2, some 3] [some 4, some 5, some 6]).low_52w = none ∧
    (buildTickerAggregates [some 1, some 2, some 3] [some 4, some 5, some 6]).vol_20d = none ∧
    (buildTickerAggregates [some 1, some 2, some 3] [some 4, some 5, some 6]).ret_1w = none ∧
    (buildTickerAggregates [some 1, some 2, some 3] [some 4, some 5, some 6]).ret_1m = none ∧
    (buildTickerAggregates [some 1, some 2, some 3] [some 4, some 5, some 6]).ret_3m = none ∧
    (buildTickerAggregates [some 1, some 2, some 3] [some 4, some 5, some 6]).ret_6m = none ∧
    (buildTickerAggregates [some 1, some 2, some 3] [some 4, some 5, some 6]).ret_1y = none :=
  have hthm := rolling_short_window_null [some 1, some 2, some 3] [some 4, some 5, some 6] rfl
  ⟨(hthm.1 (by norm_num)).1, (hthm.1 (by norm_num)).2,
   hthm.2.1 (by norm_num), hthm.2.2.1 (by norm_num),
   (hthm.2.2.2.1 (by norm_num)).1, (hthm.2.2.2.1 (by norm_num)).2,
   hthm.2.2.2.2.1 (by norm_num),
   hthm.2.2.2.2.2.1 (by norm_num), hthm.2.2.2.2.2.2.1 (by norm_num),
   hthm.2.2.2.2.2.2.2.1 (by norm_num), hthm.2.2.2.2.2.2.2.2.1 (by norm_num),
   hthm.2.2.2.2.2.2.2.2.2 (by norm_num)⟩

theorem string_data_append (s t : String) : (s ++ t).data = s.data ++ t.data := rfl

theorem pyReprAux_mem (s : String) :
    ∀ l : List String, s ∈ l →
      ∃ u v : List Char, (pyReprAux l).data = u ++ s.data ++ v := by
  intro l
  induction l with
  | nil => intro h; cases h
  | cons a rest ih =>
    intro h
    cases rest with
    | nil =>
      have hs : s = a := by simpa using h
      subst hs
      refine ⟨singleQuote.data, singleQuote.data, ?_⟩
      show (singleQuote ++ s ++ singleQuote).data = _
      simp [string_data_append]
    | cons b rest2 =>
      rcases List.mem_cons.mp h with hs | hs
      · subst hs
        refine ⟨singleQuote.data,
          (singleQuote ++ ", " ++ pyReprAux (b :: rest2)).data, ?_⟩
        show (singleQuote ++ s ++ singleQuote ++ ", " ++ pyReprAux (b :: rest2)).data = _
        simp [string_data_append]
      · obtain ⟨u, v, hu⟩ := ih hs
        refine ⟨(singleQuote ++ a ++ singleQuote ++ ", ").data ++ u, v, ?_⟩
        show (singleQuote ++ a ++ singleQuote ++ ", " ++ pyReprAux (b :: rest2)).data = _
        simp [string_data_append, hu]

theorem pyListRepr_mem (s : String) (l : List String) (h : s ∈ l) :
    ∃ u v : List Char, (pyListRepr l).data = u ++ s.data ++ v := by
  obtain ⟨u, v, hu⟩ := pyReprAux_mem s l h
  refine ⟨"[".data ++ u, v ++ "]".data, ?_⟩
  show ("[" ++ pyReprAux l ++ "]").data = _
  simp [string_data_append, hu]

theorem missingMessage_mentions_missing (f : Frame) (t : String)
    (h : t ∈ missingRequired f) :
    ∃ u v : List Char, (missingMessage f).data = u ++ t.data ++ v := by
  obtain ⟨u, v, hu⟩ := pyListRepr_mem t (missingRequired f) h
  refine ⟨"Missing required OHLCV columns: ".data ++ u,
    v ++ (". available=" ++ pyListRepr (frameCols f)).data, ?_⟩
  show ("Missing required OHLCV columns: " ++ pyListRepr (missingRequired f) ++
    ". available=" ++ pyListRepr (frameCols f)).data = _
  simp [string_data_append, hu]

theorem missingMessage_mentions_cols (f : Frame) (c : String)
    (h : c ∈ frameCols f) :
    ∃ u v : List Char, (missingMessage f).data = u ++ c.data ++ v := by
  obtain ⟨u, v, hu⟩ := pyListRepr_mem c (frameCols f) h
  refine ⟨("Missing required OHLCV columns: " ++ pyListRepr (missingRequired f) ++
    ". available=").data ++ u, v, ?_⟩
  show ("Missing required OHLCV columns: " ++ pyListRepr (missingRequired f) ++
    ". available=" ++ pyListRepr (frameCols f)).data = _
  simp [string_data_append, hu]

theorem getCol_append_value (l : List (String × List (Option ℚ))) (col : List (Option ℚ))
    (hl : ∀ p ∈ l, p.fst ≠ "value") :
    getCol (l ++ [("value", col)]) "value" = col := by
  unfold getCol
  rw [List.find?_append]
  have h1 : List.find? (fun p => p.fst == "value") l = none := by
    rw [List.find?_eq_none]
    intro p hp
    simp [hl p hp]
  rw [h1]
  simp [List.find?]

/-- C8.  When, after alias resolution over the fixed candidate lists, any
required OHLCV target is missing from the frame, `_normalize_ohlcv` fails
with the KeyError message, and that message names every missing target and
lists every observed source column (as substrings); when all five required
targets resolve and only the optional `value` column is absent, the call
succeeds and the stored `value` column is all-null. -/
theorem normalize_ohlcv_schema (f : Frame) :
    (missingRequired f ≠ [] →
       normalize_ohlcv f = Except.error (missingMessage f) ∧
       (∀ t ∈ missingRequired f, ∃ u v : List Char,
          (missingMessage f).data = u ++ t.data ++ v) ∧
       (∀ c ∈ frameCols f, ∃ u v : List Char,
          (missingMessage f).data = u ++ c.data ++ v)) ∧
    (missingRequired f = [] →
       pick_column (frameCols f) (colmap "value") = none →
       ∃ out, normalize_ohlcv f = Except.ok out ∧
         getCol out "value" = List.replicate (frameHeight f) none) := by
  constructor
  · intro h
    have hempty : (missingRequired f).isEmpty = false := by
      cases hm : missingRequired f
      · exact absurd hm h
      · rfl
    refine ⟨?_, fun t ht => missingMessage_mentions_missing f t ht,
      fun c hc => missingMessage_mentions_cols f c hc⟩
    unfold normalize_ohlcv
    rw [hempty]
    rfl
  · intro h hv
    have hempty : (missingRequired f).isEmpty = true := by rw [h]; rfl
    refine ⟨(required_targets.filterMap (fun t =>
        (pick_column (frameCols f) (colmap t)).map (fun src => (t, getCol f src)))) ++
      [("value", List.replicate (frameHeight f) none)], ?_, ?_⟩
    · unfold normalize_ohlcv
      rw [hempty, hv]
      rfl
    · apply getCol_append_value
      intro p hp
      obtain ⟨t, ht, hmap⟩ := List.mem_filterMap.mp hp
      obtain ⟨src, hsrc, hpeq⟩ := Option.map_eq_some'.mp hmap
      have hfst : p.fst = t := by rw [← hpeq]
      have htne : t ≠ "value" := by
        simp only [required_targets, List.mem_cons, List.mem_singleton] at ht
        rcases ht with rfl | rfl | rfl | rfl | rfl | hfalse
        · decide
        · decide
        · decide
        · decide
        · decide
        · exact absurd hfalse (List.not_mem_nil t)
      rw [hfst]
      exact htne

/-- Witness for C8: a frame with Korean OHLCV columns but no
close-equivalent fails with the message naming "close" and the observed
columns; a frame with the five Korean columns and no value-equivalent
succeeds with an all-null `value` column. -/
theorem normalize_ohlcv_schema_witness :
    ((missingRequired [("시가", [some 1]), ("고가", [some 2]), ("저가", [some 3]),
        ("거래량", [some 4])] ≠ []) ∧
     normalize_ohlcv [("시가", [some 1]), ("고가", [some 2]), ("저가", [some 3]),
        ("거래량", [some 4])] =
       Except.error (missingMessage [("시가", [some 1]), ("고가", [some 2]),
        ("저가", [some 3]), ("거래량", [some 4])]) ∧
     (∀ t ∈ missingRequired [("시가", [some 1]), ("고가", [some 2]), ("저가", [some 3]),
        ("거래량", [some 4])], ∃ u v : List Char,
        (missingMessage [("시가", [some 1]), ("고가", [some 2]), ("저가", [some 3]),
          ("거래량", [some 4])]).data = u ++ t.data ++ v)) ∧
    (∃ out, normalize_ohlcv [("시가", [some 1]), ("고가", [some 1]), ("저가", [some 1]),
        ("종가", [some 1]), ("거래량", [some 1])] = Except.ok out ∧
      getCol out "value" = List.replicate 1 none) :=
  ⟨⟨by decide,
    ((normalize_ohlcv_schema [("시가", [some 1]), ("고가", [some 2]), ("저가", [some 3]),
        ("거래량", [some 4])]).1 (by decide)).1,
    ((normalize_ohlcv_schema [("시가", [some 1]), ("고가", [some 2]), ("저가", [some 3]),
        ("거래량", [some 4])]).1 (by decide)).2.1⟩,
    (normalize_ohlcv_schema [("시가", [some 1]), ("고가", [some 1]), ("저가", [some 1]),
        ("종가", [some 1]), ("거래량", [some 1])]).2 (by decide) (by decide)⟩

end StockScreener
